import Mathlib

/-!
Shallow embedding of the core booking logic of `gym_booking.py`
(class `GymBookingBot` and the free function `wait_until_booking_time`),
together with proofs of the specification claims about it.

Wall-clock instants are modelled as integers (seconds; milliseconds inside
the high-frequency click loop); the browser page is modelled by the data the
code reads from it (date-option labels, table rows with their bookable
buttons, modal text), and each `datetime.now()` reading of a loop iteration
is an explicit input, so an execution is driven by a finite script of
per-iteration observations.
-/

namespace GymBooking

/-- Python's substring test `sub in s`, on lists of characters:
`leadsWith sub s` holds when `s` starts with `sub`. -/
def leadsWith : List Char → List Char → Bool
  | [], _ => true
  | _ :: _, [] => false
  | a :: xs, b :: ys => a == b && leadsWith xs ys

/-- `hasSub sub s` : `sub` occurs contiguously inside `s`. -/
def hasSub (sub : List Char) : List Char → Bool
  | [] => leadsWith sub []
  | b :: ys => leadsWith sub (b :: ys) || hasSub sub ys

/-- Python's `sub in s` on strings. -/
def strContains (sub s : String) : Bool :=
  hasSub sub.toList s.toList

/-- Wall-clock instants, in seconds. -/
abbrev Time := Int

/-- The grace window hard-coded in both polling loops:
`timedelta(minutes=5)`, in seconds. -/
def graceSeconds : Time := 300

/-- `timeout_time = self.booking_time + timedelta(minutes=5)` when a booking
time is configured, else `None` (both `step8_select_date` and
`smart_booking_flow` compute this the same way). -/
def deadlineOf (bookingTime : Option Time) : Option Time :=
  bookingTime.map (· + graceSeconds)

/-- The guard `if timeout_time and datetime.now() > timeout_time:` shared by
both loops (a `datetime` object is always truthy, so the first conjunct is
exactly "a deadline is configured"). -/
def expired (timeout : Option Time) (now : Time) : Bool :=
  match timeout with
  | none => false
  | some t => now > t

/-! ### Step 8: date polling (`step8_select_date`) -/

/-- An observable action of the date-polling loop. -/
inductive Action
  | click (label : String)
  | sleepFor (secs : Nat)
  | refresh
deriving DecidableEq, Repr

/-- The way the date-polling loop ends: clicked the first matching date
option and returned; raised the deadline exception
(`"超出预约时间5分钟，停止日期选择"`); or still looping when the observation
script runs out. -/
inductive DateResult
  | selected (label : String)
  | deadlineExceeded
  | running
deriving DecidableEq, Repr

/-- The `while True:` loop of `step8_select_date`.  One script entry per
iteration: the `datetime.now()` reading at the head of the iteration and the
texts of the `date-number` elements the subsequent scan sees.  The loop head
checks the deadline; then the first element whose text contains the target
date label is clicked and the loop returns; with no match the loop sleeps
one second, reloads the page, sleeps one second and retries. -/
def step8_select_date (target : String) (timeout : Option Time) :
    List (Time × List String) → DateResult × List Action
  | [] => (.running, [])
  | (now, opts) :: rest =>
    if expired timeout now then (.deadlineExceeded, [])
    else
      match opts.find? (fun t => strContains target t) with
      | some l => (.selected l, [.click l])
      | none =>
        let next := step8_select_date target timeout rest
        (next.1, .sleepFor 1 :: .refresh :: .sleepFor 1 :: next.2)

/-! ### Slot candidates, sampling, and the retry loop (`smart_booking_flow`) -/

/-- A bookable slot button, identified by a stable id. -/
abbrev Cand := Nat

/-- `random.sample(pool, k)` draws `k` distinct positions of `pool`; the
draw itself is the `pick` argument (the list of chosen positions, in
selection order), so the function is deterministic in the embedded model. -/
def sample (pool : List Cand) (pick : List Nat) : List Cand :=
  pick.filterMap (fun i => pool[i]?)

/-- `pick` is a draw `random.sample` can produce on a pool of `n` elements:
distinct in-range positions, `min 2 n` of them (`num_buttons = min(2,
len(...))` at both call sites). -/
def validPick (n : Nat) (pick : List Nat) : Prop :=
  pick.Nodup ∧ (∀ i ∈ pick, i < n) ∧ pick.length = min 2 n

/-- `for button in selected_buttons: if button in all_bookable_buttons:
all_bookable_buttons.remove(button)` — `list.remove` deletes the first
occurrence and is guarded by a membership test, which is `List.erase`. -/
def removeGroup (pool group : List Cand) : List Cand :=
  group.foldl (fun p b => p.erase b) pool

/-- One iteration of the retry loop, as observed from outside: the
`datetime.now()` reading at the deadline check, the positions
`random.sample` draws, the boolean `step10_click_book_button_with_retry`
returns, and the boolean `step11_check_success` returns. -/
structure Iter where
  now : Time
  pick : List Nat
  clickOk : Bool
  classifiedOk : Bool

/-- How a run of `smart_booking_flow` ends.  `success` is the `return True`;
`timedOut` is the `return False` after the deadline check; `exhausted` is
the `return False` after the `while` guard fails (`"所有可预约按钮都已尝试完
毕"`); `noCandidates` is the `return False` before the loop when the initial
scan finds no buttons; `running` means the observation script ended with the
loop still going. -/
inductive FlowOutcome
  | success
  | timedOut
  | exhausted
  | noCandidates
  | running
deriving DecidableEq, Repr

/-- The `while all_bookable_buttons:` loop of `smart_booking_flow`, driven
by one `Iter` per iteration.  Returns the outcome together with the attempt
trace: one `(pool at the head of the iteration, sampled attempt group)` pair
per iteration that reached the sampling step.  A failed click or a failed
classification removes the just-attempted group from the pool and loops. -/
def flowRun (timeout : Option Time) (pool : List Cand) :
    List Iter → FlowOutcome × List (List Cand × List Cand)
  | [] => if pool = [] then (.exhausted, []) else (.running, [])
  | it :: rest =>
    if pool = [] then (.exhausted, [])
    else if expired timeout it.now then (.timedOut, [])
    else
      let group := sample pool it.pick
      if it.clickOk && it.classifiedOk then (.success, [(pool, group)])
      else
        let next := flowRun timeout (removeGroup pool group) rest
        (next.1, (pool, group) :: next.2)

/-- `smart_booking_flow`: scan the bookable buttons once; with none found
return `False` immediately; otherwise run the retry loop. -/
def smart_booking_flow (timeout : Option Time) (pool : List Cand)
    (script : List Iter) : FlowOutcome × List (List Cand × List Cand) :=
  if pool = [] then (.noCandidates, []) else flowRun timeout pool script

/-! ### Step 9: pool construction (`step9_select_time_slot`) -/

/-- One `<tr>` of the slot table: its text content and the bookable buttons
found inside it. -/
structure Row where
  text : String
  buttons : List Cand

/-- The failure of step 9: `raise Exception("未找到任何可预约按钮")`. -/
inductive Step9Err
  | noCandidatesFound
deriving DecidableEq, Repr

/-- A row's text contains at least one configured target time-slot string. -/
def rowMatch (targets : List String) (row : Row) : Bool :=
  targets.any (fun t => strContains t row.text)

/-- Pool construction in `step9_select_time_slot`: fail if the page-wide
scan finds no bookable button; otherwise collect, for every row and every
configured target slot contained in the row's text, the bookable buttons of
that row; if that collection is empty fall back to the full unfiltered
scan. -/
def step9_pool (targets : List String) (allBookable : List Cand)
    (rows : List Row) : Except Step9Err (List Cand) :=
  if allBookable = [] then .error .noCandidatesFound
  else
    let selected := rows.foldl (fun acc row =>
      targets.foldl (fun acc2 t =>
        if strContains t row.text then acc2 ++ row.buttons else acc2) acc) []
    .ok (if selected = [] then allBookable else selected)

/-- `step9_select_time_slot` up to the point where the chosen buttons are
clicked: build the pool, then `random.sample(selected_buttons, min(2,
len(selected_buttons)))`. -/
def step9_select_time_slot (targets : List String) (allBookable : List Cand)
    (rows : List Row) (pick : List Nat) : Except Step9Err (List Cand) :=
  match step9_pool targets allBookable rows with
  | .error e => .error e
  | .ok pool => .ok (sample pool pick)

/-! ### Step 10: high-frequency confirmation loop
(`step10_click_book_button_with_retry`) -/

/-- The `while time.time() - start_time < 2.0:` loop, in milliseconds.
Per iteration the script supplies whether the click raised
(`clickErr`, which `break`s the loop), whether the `.modal-content` query
after the click finds a modal (`modal`), and how many extra milliseconds
the iteration's click and query took beyond the fixed `sleep(0.125)`
(`delays`).  Returns (modal observed during the loop, click count). -/
def step10_confirm (clickErr modal : List Bool) (delays : List Nat)
    (elapsed count : Nat) : Bool × Nat :=
  if h : elapsed < 2000 then
    if clickErr.headD false then (false, count)
    else if modal.headD false then (true, count + 1)
    else
      step10_confirm clickErr.tail modal.tail delays.tail
        (elapsed + 125 + delays.headD 0) (count + 1)
  else (false, count)
termination_by 2000 - elapsed
decreasing_by simp_wf; omega

/-- `step10_click_book_button_with_retry`: wait up to 10000 ms for the
submit button (`buttonAt` is the instant the selector would first succeed,
`none` if never); on timeout return `False` (no retry inside this
function).  Then run the confirmation loop; if it saw a modal return
`True`, else wait up to 5000 ms for `.modal-content` (`lateModalAt`
likewise) and return whether it appeared. -/
def step10_click_book_button_with_retry (buttonAt : Option Nat)
    (clickErr modal : List Bool) (delays : List Nat)
    (lateModalAt : Option Nat) : Bool :=
  match buttonAt with
  | none => false
  | some t =>
    if t ≤ 10000 then
      if (step10_confirm clickErr modal delays 0 0).1 then true
      else
        match lateModalAt with
        | none => false
        | some m => decide (m ≤ 5000)
    else false

/-! ### Step 11: result classification (`step11_check_success`) -/

/-- The boolean the Python function `step11_check_success` returns:
if a `.modal-content` element is present, test its text for the success
markers `"预约成功"` / `"您已经预约成功"`; otherwise apply the marker test
`"预约成功"` to the whole page body text. -/
def step11_check_success (modalText : Option String) (pageText : String) : Bool :=
  match modalText with
  | some t => strContains "预约成功" t || strContains "您已经预约成功" t
  | none => strContains "预约成功" pageText

/-- The tri-state outcome of an attempt. -/
inductive Outcome
  | success
  | failure
  | unknown
deriving DecidableEq, Repr

/-- The branch of `step11_check_success` that fires, as a tri-state outcome.
The four code branches are observably distinct (each logs a different line:
modal success, `"弹窗中未检测到预约成功文本"`, page success,
`"未检测到预约成功文本"`); this function records which one ran. -/
def step11_classify (modalText : Option String) (pageText : String) : Outcome :=
  match modalText with
  | some t =>
    if strContains "预约成功" t || strContains "您已经预约成功" t then .success
    else .failure
  | none =>
    if strContains "预约成功" pageText then .success
    else .unknown

/-- A string contains one of the configured success markers. -/
def hasMarker (t : String) : Bool :=
  strContains "预约成功" t || strContains "您已经预约成功" t

/-! ### `wait_until_booking_time` -/

/-- The countdown loop `while remaining_seconds > 0:` run from an initial
`remaining_seconds` value: returns the seconds-remaining values printed
inside the loop and the number of one-second sleeps performed. -/
def countdownLoop : Nat → List Nat × Nat
  | 0 => ([], 0)
  | r + 1 =>
    let next := countdownLoop r
    (if r > 0 then r :: next.1 else next.1, next.2 + 1)

/-- What a call to `wait_until_booking_time` does, as observed from
outside: whether it took the late-start branch (the warning
`"当前时间已超过启动时间，立即开始预约"`), the seconds-remaining countdown
ticks it printed, and how many one-second sleeps it performed. -/
structure WaitTrace where
  lateStart : Bool
  ticks : List Nat
  sleeps : Nat
deriving DecidableEq, Repr

/-- `wait_until_booking_time`: `start_time = booking_time -
timedelta(minutes=1)`; if now is strictly before it, print the initial
countdown value and run the countdown loop; otherwise proceed immediately
with the late-start warning. -/
def wait_until_booking_time (bookingTime now : Time) : WaitTrace :=
  let startTime := bookingTime - 60
  if now < startTime then
    let w := (startTime - now).toNat
    let run := countdownLoop w
    { lateStart := false, ticks := w :: run.1, sleeps := run.2 }
  else
    { lateStart := true, ticks := [], sleeps := 0 }

/-! ## Supporting lemmas -/

lemma leadsWith_append_elim (a b s : List Char) :
    leadsWith (a ++ b) s = true → hasSub b s = true := by
  induction a generalizing s with
  | nil =>
    intro h
    cases s with
    | nil => exact h
    | cons c s' => simpa [hasSub] using Or.inl h
  | cons c a' ih =>
    intro h
    cases s with
    | nil => simp [leadsWith] at h
    | cons d s' =>
      simp only [List.cons_append, leadsWith, Bool.and_eq_true] at h
      have := ih s' h.2
      cases s' with
      | nil => simpa [hasSub] using Or.inr this
      | cons e s'' => simpa [hasSub] using Or.inr this

lemma hasSub_append_elim (a b s : List Char) :
    hasSub (a ++ b) s = true → hasSub b s = true := by
  induction s with
  | nil =>
    intro h
    exact leadsWith_append_elim a b [] h
  | cons c s' ih =>
    intro h
    simp only [hasSub, Bool.or_eq_true] at h
    rcases h with h | h
    · exact leadsWith_append_elim a b (c :: s') h
    · have := ih h
      simpa [hasSub] using Or.inr this

/-- The long marker `"您已经预约成功"` contains the short one `"预约成功"`,
so the two-marker test of the modal branch and the one-marker test of the
page-fallback branch accept exactly the same strings. -/
lemma strContains_long_marker (s : String) :
    strContains "您已经预约成功" s = true → strContains "预约成功" s = true := by
  intro h
  have hsplit : "您已经预约成功".toList = "您已经".toList ++ "预约成功".toList := by
    decide
  unfold strContains at h ⊢
  rw [hsplit] at h
  exact hasSub_append_elim _ _ _ h

lemma hasMarker_iff (s : String) :
    hasMarker s = true ↔ strContains "预约成功" s = true := by
  constructor
  · intro h
    rcases Bool.or_eq_true _ _ |>.mp h with h | h
    · exact h
    · exact strContains_long_marker s h
  · intro h
    exact Bool.or_eq_true _ _ |>.mpr (Or.inl h)

lemma step8_head_expired (target : String) (timeout : Option Time)
    (now : Time) (opts : List String) (rest : List (Time × List String))
    (h : expired timeout now = true) :
    step8_select_date target timeout ((now, opts) :: rest) =
      (.deadlineExceeded, []) := by
  simp [step8_select_date, h]

lemma step8_no_hit_no_click (target : String) (timeout : Option Time)
    (trace : List (Time × List String))
    (h : ∀ e ∈ trace, e.2.find? (fun t => strContains target t) = none) :
    ∀ l, Action.click l ∉ (step8_select_date target timeout trace).2 := by
  induction trace with
  | nil => intro l; simp [step8_select_date]
  | cons e rest ih =>
    intro l
    obtain ⟨now, opts⟩ := e
    have hhead : opts.find? (fun t => strContains target t) = none :=
      h (now, opts) (List.mem_cons_self _ _)
    have hrest : ∀ e ∈ rest, e.2.find? (fun t => strContains target t) = none :=
      fun e he => h e (List.mem_cons_of_mem _ he)
    by_cases hexp : expired timeout now = true
    · simp [step8_select_date, hexp]
    · have hexp' : expired timeout now = false := by
        cases hv : expired timeout now
        · rfl
        · exact absurd hv hexp
      simp only [step8_select_date, hexp', Bool.false_eq_true, if_false, hhead]
      intro hmem
      simp only [List.mem_cons] at hmem
      rcases hmem with h1 | h1 | h1 | h1
      · exact Action.noConfusion h1
      · exact Action.noConfusion h1
      · exact Action.noConfusion h1
      · exact ih hrest l h1

lemma sample_subset (pool : List Cand) (pick : List Nat) :
    ∀ x ∈ sample pool pick, x ∈ pool := by
  intro x hx
  simp only [sample, List.mem_filterMap] at hx
  obtain ⟨i, _, hi⟩ := hx
  exact List.getElem?_mem hi

lemma sample_length (pool : List Cand) (pick : List Nat)
    (h : ∀ i ∈ pick, i < pool.length) :
    (sample pool pick).length = pick.length := by
  induction pick with
  | nil => rfl
  | cons i is ih =>
    have hi : i < pool.length := h i (List.mem_cons_self _ _)
    have his : ∀ j ∈ is, j < pool.length :=
      fun j hj => h j (List.mem_cons_of_mem _ hj)
    have := ih his
    simp only [sample] at this ⊢
    simp only [List.filterMap_cons, List.getElem?_eq_getElem hi,
      List.length_cons, this]

lemma sample_nodup (pool : List Cand) (pick : List Nat)
    (hpool : pool.Nodup) (hpick : pick.Nodup)
    (h : ∀ i ∈ pick, i < pool.length) :
    (sample pool pick).Nodup := by
  induction pick with
  | nil => exact List.nodup_nil
  | cons i is ih =>
    have hi : i < pool.length := h i (List.mem_cons_self _ _)
    have his : ∀ j ∈ is, j < pool.length :=
      fun j hj => h j (List.mem_cons_of_mem _ hj)
    have hnd := List.nodup_cons.mp hpick
    simp only [sample, List.filterMap_cons, List.getElem?_eq_getElem hi]
    refine List.nodup_cons.mpr ⟨?_, ?_⟩
    · intro hmem
      simp only [List.mem_filterMap] at hmem
      obtain ⟨j, hj, hjv⟩ := hmem
      have hjlt : j < pool.length := his j hj
      rw [List.getElem?_eq_getElem hjlt] at hjv
      have hval : pool.get ⟨j, hjlt⟩ = pool.get ⟨i, hi⟩ := by
        simpa using Option.some.inj hjv
      have : (⟨j, hjlt⟩ : Fin pool.length) = ⟨i, hi⟩ :=
        (hpool.get_inj_iff).mp hval
      have : j = i := by simpa using congrArg Fin.val this
      exact hnd.1 (this ▸ hj)
    · have := ih hnd.2 his
      simpa [sample] using this

lemma removeGroup_sublist (pool group : List Cand) :
    List.Sublist (removeGroup pool group) pool := by
  induction group generalizing pool with
  | nil => exact List.Sublist.refl _
  | cons b g ih =>
    have h1 := ih (pool.erase b)
    have h2 := List.erase_sublist b pool
    simpa [removeGroup] using h1.trans h2

lemma not_mem_removeGroup (pool group : List Cand) (hpool : pool.Nodup)
    (b : Cand) (hb : b ∈ group) : b ∉ removeGroup pool group := by
  induction group generalizing pool with
  | nil => cases hb
  | cons a g ih =>
    simp only [removeGroup, List.foldl_cons]
    rcases List.mem_cons.mp hb with rfl | hb'
    · intro hmem
      have hsub : b ∈ pool.erase b := by
        have := removeGroup_sublist (pool.erase b) g
        exact this.subset (by simpa [removeGroup] using hmem)
      rw [hpool.mem_erase_iff] at hsub
      exact hsub.1 rfl
    · have := ih (pool.erase a) (hpool.erase a) hb'
      simpa [removeGroup] using this

lemma mem_removeGroup (pool group : List Cand) (hpool : pool.Nodup) (x : Cand) :
    x ∈ removeGroup pool group ↔ x ∈ pool ∧ x ∉ group := by
  induction group generalizing pool with
  | nil => simp [removeGroup]
  | cons a g ih =>
    have step : removeGroup pool (a :: g) = removeGroup (pool.erase a) g := by
      simp [removeGroup]
    rw [step, ih (pool.erase a) (hpool.erase a), hpool.mem_erase_iff]
    simp only [List.mem_cons]
    constructor
    · rintro ⟨⟨hxa, hxp⟩, hxg⟩
      exact ⟨hxp, fun h => h.elim hxa hxg⟩
    · rintro ⟨hxp, hn⟩
      exact ⟨⟨fun h => hn (Or.inl h), hxp⟩, fun h => hn (Or.inr h)⟩

lemma flowRun_nil_pool (timeout : Option Time) (script : List Iter) :
    flowRun timeout [] script = (.exhausted, []) := by
  cases script <;> simp [flowRun]

lemma flowRun_timed_out (timeout : Option Time) (pool : List Cand)
    (it : Iter) (rest : List Iter) (hp : pool ≠ [])
    (he : expired timeout it.now = true) :
    flowRun timeout pool (it :: rest) = (.timedOut, []) := by
  simp [flowRun, hp, he]

lemma flowRun_success_step (timeout : Option Time) (pool : List Cand)
    (it : Iter) (rest : List Iter) (hp : pool ≠ [])
    (he : expired timeout it.now = false)
    (hc : (it.clickOk && it.classifiedOk) = true) :
    flowRun timeout pool (it :: rest) =
      (.success, [(pool, sample pool it.pick)]) := by
  simp [flowRun, hp, he, hc]

lemma flowRun_retry_step (timeout : Option Time) (pool : List Cand)
    (it : Iter) (rest : List Iter) (hp : pool ≠ [])
    (he : expired timeout it.now = false)
    (hc : (it.clickOk && it.classifiedOk) = false) :
    flowRun timeout pool (it :: rest) =
      ((flowRun timeout (removeGroup pool (sample pool it.pick)) rest).1,
        (pool, sample pool it.pick) ::
          (flowRun timeout (removeGroup pool (sample pool it.pick)) rest).2) := by
  simp [flowRun, hp, he, hc]

lemma flow_trace_mem (timeout : Option Time) :
    ∀ (script : List Iter) (pool : List Cand) (pg : List Cand × List Cand),
      pg ∈ (flowRun timeout pool script).2 →
      List.Sublist pg.1 pool ∧ (∀ x ∈ pg.2, x ∈ pg.1) := by
  intro script
  induction script with
  | nil =>
    intro pool pg h
    by_cases hp : pool = [] <;> simp [flowRun, hp] at h
  | cons it rest ih =>
    intro pool pg h
    by_cases hp : pool = []
    · rw [hp, flowRun_nil_pool] at h
      simp at h
    · cases he : expired timeout it.now with
      | true =>
        rw [flowRun_timed_out timeout pool it rest hp he] at h
        simp at h
      | false =>
        cases hc : (it.clickOk && it.classifiedOk) with
        | true =>
          rw [flowRun_success_step timeout pool it rest hp he hc] at h
          simp only [List.mem_singleton] at h
          subst h
          exact ⟨List.Sublist.refl _, fun x hx => sample_subset pool it.pick x hx⟩
        | false =>
          rw [flowRun_retry_step timeout pool it rest hp he hc] at h
          simp only [List.mem_cons] at h
          rcases h with rfl | h
          · exact ⟨List.Sublist.refl _, fun x hx => sample_subset pool it.pick x hx⟩
          · have := ih (removeGroup pool (sample pool it.pick)) pg h
            exact ⟨this.1.trans (removeGroup_sublist _ _), this.2⟩

lemma step10_confirm_count_le (k : Nat) :
    ∀ (clickErr modal : List Bool) (delays : List Nat) (elapsed count : Nat),
      2000 ≤ elapsed + 125 * k →
      (step10_confirm clickErr modal delays elapsed count).2 ≤ count + k := by
  induction k with
  | zero =>
    intro ce m d e c h
    rw [step10_confirm]
    have he : ¬ e < 2000 := by omega
    simp [he]
  | succ k ih =>
    intro ce m d e c h
    rw [step10_confirm]
    by_cases he : e < 2000
    · rw [dif_pos he]
      cases h1 : ce.headD false with
      | true => simp
      | false =>
        cases h2 : m.headD false with
        | true => simp [h2]
        | false =>
          simp only [Bool.false_eq_true, if_false]
          have := ih ce.tail m.tail d.tail (e + 125 + d.headD 0) (c + 1)
            (by omega)
          omega
    · rw [dif_neg he]
      simp

lemma mem_targets_foldl (targets : List String) (row : Row) (acc : List Cand)
    (x : Cand) :
    x ∈ targets.foldl (fun acc2 t =>
        if strContains t row.text then acc2 ++ row.buttons else acc2) acc ↔
      x ∈ acc ∨ (rowMatch targets row = true ∧ x ∈ row.buttons) := by
  induction targets generalizing acc with
  | nil => simp [rowMatch]
  | cons t ts ih =>
    rw [List.foldl_cons]
    cases h : strContains t row.text with
    | false =>
      rw [if_neg (by simp [h])]
      rw [ih]
      simp [rowMatch, h]
    | true =>
      rw [if_pos (by simp [h])]
      rw [ih]
      simp only [List.mem_append, rowMatch, List.any_cons, h, Bool.true_or,
        true_and]
      tauto

lemma mem_rows_foldl (targets : List String) (rows : List Row)
    (acc : List Cand) (x : Cand) :
    x ∈ rows.foldl (fun acc row => targets.foldl (fun acc2 t =>
        if strContains t row.text then acc2 ++ row.buttons else acc2) acc) acc ↔
      x ∈ acc ∨ ∃ row ∈ rows, rowMatch targets row = true ∧ x ∈ row.buttons := by
  induction rows generalizing acc with
  | nil => simp
  | cons r rs ih =>
    rw [List.foldl_cons, ih, mem_targets_foldl]
    simp only [List.exists_mem_cons_iff]
    tauto

lemma countdownLoop_sleeps (w : Nat) : (countdownLoop w).2 = w := by
  induction w with
  | zero => rfl
  | succ r ih => simp [countdownLoop, ih]

lemma countdownLoop_ticks_length (w : Nat) :
    (countdownLoop w).1.length = w - 1 := by
  induction w with
  | zero => rfl
  | succ r ih =>
    by_cases h : r > 0
    · simp only [countdownLoop, if_pos h, List.length_cons, ih]
      omega
    · have hr : r = 0 := by omega
      subst hr
      rfl

/-! ## Claim theorems -/

/-- **C3.** Result classification: a present modal whose text carries a success
marker is classified `success`; a present modal without a marker is `failure`;
with no modal, the page-body fallback yields `success` when it carries a
marker and `unknown` (never `failure`) otherwise; `unknown` and `failure` are
distinct outcomes; and the boolean `step11_check_success` returns is `true`
exactly on the `success` branch. -/
theorem C3_result_classification :
    (∀ t page, hasMarker t = true → step11_classify (some t) page = .success)
    ∧ (∀ t page, hasMarker t = false → step11_classify (some t) page = .failure)
    ∧ (∀ page, hasMarker page = true → step11_classify none page = .success)
    ∧ (∀ page, hasMarker page = false → step11_classify none page = .unknown)
    ∧ (∀ page, step11_classify none page ≠ .failure)
    ∧ Outcome.unknown ≠ Outcome.failure
    ∧ (∀ m page, step11_check_success m page = true ↔
        step11_classify m page = .success) := by
  refine ⟨?_, ?_, ?_, ?_, ?_, by decide, ?_⟩
  · intro t page h
    simp only [step11_classify, hasMarker] at *
    simp [h]
  · intro t page h
    simp only [step11_classify, hasMarker] at *
    simp [h]
  · intro page h
    have := (hasMarker_iff page).mp h
    simp [step11_classify, this]
  · intro page h
    have : strContains "预约成功" page = false := by
      by_contra hc
      have hc' : strContains "预约成功" page = true := by
        cases hval : strContains "预约成功" page
        · exact absurd hval hc
        · rfl
      rw [(hasMarker_iff page).mpr hc'] at h
      exact absurd h (by decide)
    simp [step11_classify, this]
  · intro page
    simp only [step11_classify]
    split <;> simp
  · intro m page
    cases m with
    | none =>
      simp only [step11_check_success, step11_classify]
      split <;> simp_all
    | some t =>
      simp only [step11_check_success, step11_classify]
      split <;> simp_all

/-- Witness for C3 at concrete inputs. -/
theorem C3_result_classification_witness :
    step11_classify (some "您已经预约成功！") "" = .success
    ∧ step11_classify none "加载失败" = .unknown :=
  ⟨C3_result_classification.1 "您已经预约成功！" "" (by decide),
   C3_result_classification.2.2.2.1 "加载失败" (by decide)⟩

/-- **C1.** Deadline handling of both polling loops: with a configured
release instant `b` the deadline is `b` plus the 5-minute grace window; the
expiry test is strict (`now > deadline`, so `now = deadline` is not
expired); an iteration of the date-polling loop whose head check observes an
expired clock ends the loop at once with `deadlineExceeded` and performs no
action, and likewise an iteration of the booking retry loop ends with
`timedOut` and attempts nothing; and when the head check passes, the rest of
the iteration never consults the clock (the iteration's behaviour is fully
determined by the scan result and the recursive call). -/
theorem C1_polling_deadline (b : Time) :
    deadlineOf (some b) = some (b + graceSeconds)
    ∧ (∀ d now, expired (some d) now = decide (d < now))
    ∧ (∀ d : Time, expired (some d) d = false)
    ∧ (∀ target now opts rest, expired (deadlineOf (some b)) now = true →
        step8_select_date target (deadlineOf (some b)) ((now, opts) :: rest) =
          (.deadlineExceeded, []))
    ∧ (∀ pool it rest, pool ≠ [] → expired (deadlineOf (some b)) it.now = true →
        flowRun (deadlineOf (some b)) pool (it :: rest) = (.timedOut, []))
    ∧ (∀ target d now opts rest, expired d now = false →
        step8_select_date target d ((now, opts) :: rest) =
          match opts.find? (fun t => strContains target t) with
          | some l => (.selected l, [.click l])
          | none =>
            ((step8_select_date target d rest).1,
              .sleepFor 1 :: .refresh :: .sleepFor 1 ::
                (step8_select_date target d rest).2)) := by
  refine ⟨rfl, fun d now => rfl, ?_, ?_, ?_, ?_⟩
  · intro d
    simp [expired]
  · intro target now opts rest h
    exact step8_head_expired target _ now opts rest h
  · intro pool it rest hpool hexp
    simp [flowRun, hpool, hexp]
  · intro target d now opts rest h
    simp only [step8_select_date, h, Bool.false_eq_true, if_false]

/-- Witness for C1 at concrete inputs: release instant 0, deadline 300,
clock reading 301. -/
theorem C1_polling_deadline_witness :
    step8_select_date "9-17" (deadlineOf (some 0)) [(301, ["9-17"])] =
      (.deadlineExceeded, [])
    ∧ flowRun (deadlineOf (some 0)) [7]
        [⟨301, [0], true, true⟩] = (.timedOut, []) :=
  ⟨(C1_polling_deadline 0).2.2.2.1 "9-17" 301 ["9-17"] [] (by decide),
   (C1_polling_deadline 0).2.2.2.2.1 [7] ⟨301, [0], true, true⟩ []
     (by decide) (by decide)⟩

/-- **C6.** Date poller: when an iteration's head check passes and the scan
contains the target date's label, the poller clicks the first such option
exactly once and returns at once — nothing after that click, no further
scans; when the label is absent the iteration emits a 1-second sleep, a page
refresh (and one more 1-second sleep) and retries; and on a script in which
the target is never present, no click action is ever emitted, and if the
clock expires within the script the poller ends with `deadlineExceeded`. -/
theorem C6_date_poller (target : String) (timeout : Option Time) :
    (∀ now opts rest l, expired timeout now = false →
      opts.find? (fun t => strContains target t) = some l →
      step8_select_date target timeout ((now, opts) :: rest) =
        (.selected l, [.click l]))
    ∧ (∀ now opts rest, expired timeout now = false →
        opts.find? (fun t => strContains target t) = none →
        step8_select_date target timeout ((now, opts) :: rest) =
          ((step8_select_date target timeout rest).1,
            .sleepFor 1 :: .refresh :: .sleepFor 1 ::
              (step8_select_date target timeout rest).2))
    ∧ (∀ trace, (∀ e ∈ trace, e.2.find? (fun t => strContains target t) = none) →
        ∀ l, Action.click l ∉ (step8_select_date target timeout trace).2)
    ∧ (∀ trace, (∀ e ∈ trace, e.2.find? (fun t => strContains target t) = none) →
        (∃ e ∈ trace, expired timeout e.1 = true) →
        (step8_select_date target timeout trace).1 = .deadlineExceeded) := by
  refine ⟨?_, ?_, step8_no_hit_no_click target timeout, ?_⟩
  · intro now opts rest l hexp hfind
    simp [step8_select_date, hexp, hfind]
  · intro now opts rest hexp hfind
    simp [step8_select_date, hexp, hfind]
  · intro trace hnone hexp
    induction trace with
    | nil => simp at hexp
    | cons e rest ih =>
      obtain ⟨now, opts⟩ := e
      by_cases hh : expired timeout now = true
      · simp [step8_select_date, hh]
      · have hh' : expired timeout now = false := by
          cases hv : expired timeout now
          · rfl
          · exact absurd hv hh
        have hhead : opts.find? (fun t => strContains target t) = none :=
          hnone (now, opts) (List.mem_cons_self _ _)
        have hrest : ∀ e ∈ rest, e.2.find? (fun t => strContains target t) = none :=
          fun e he => hnone e (List.mem_cons_of_mem _ he)
        have hexp' : ∃ e ∈ rest, expired timeout e.1 = true := by
          rcases hexp with ⟨e, he, hee⟩
          rcases List.mem_cons.mp he with rfl | he'
          · exact absurd hee (by simpa using hh)
          · exact ⟨e, he', hee⟩
        simp only [step8_select_date, hh', Bool.false_eq_true, if_false, hhead]
        exact ih hrest hexp'

/-- Witness for C6 at concrete inputs. -/
theorem C6_date_poller_witness :
    step8_select_date "9-17" (deadlineOf (some 0)) [(10, ["9-16", "9-17号"])] =
      (.selected "9-17号", [.click "9-17号"])
    ∧ (step8_select_date "9-17" (deadlineOf (some 0))
        [(10, ["9-16"]), (301, ["9-16"])]).1 = .deadlineExceeded :=
  ⟨(C6_date_poller "9-17" (deadlineOf (some 0))).1 10 ["9-16", "9-17号"] []
      "9-17号" (by decide) (by decide),
   (C6_date_poller "9-17" (deadlineOf (some 0))).2.2.2
      [(10, ["9-16"]), (301, ["9-16"])] (by decide)
      ⟨(301, ["9-16"]), by decide, by decide⟩⟩

/-- **C10.** With no release instant configured, neither loop has a
deadline: the expiry test is constantly false, the date poller can never end
with `deadlineExceeded` and the retry loop can never end with `timedOut`,
and on any finite script in which the target date never appears the date
poller is still running (it never terminates). -/
theorem C10_no_deadline (target : String) :
    deadlineOf none = none
    ∧ (∀ now, expired none now = false)
    ∧ (∀ trace, (step8_select_date target none trace).1 ≠ .deadlineExceeded)
    ∧ (∀ pool script, (flowRun none pool script).1 ≠ .timedOut)
    ∧ (∀ trace, (∀ e ∈ trace, e.2.find? (fun t => strContains target t) = none) →
        (step8_select_date target none trace).1 = .running) := by
  refine ⟨rfl, fun now => rfl, ?_, ?_, ?_⟩
  · intro trace
    induction trace with
    | nil => simp [step8_select_date]
    | cons e rest ih =>
      obtain ⟨now, opts⟩ := e
      simp only [step8_select_date, expired, Bool.false_eq_true, if_false]
      cases hfind : opts.find? (fun t => strContains target t) with
      | some l => simp
      | none => simpa using ih
  · intro pool script
    induction script generalizing pool with
    | nil =>
      by_cases h : pool = [] <;> simp [flowRun, h]
    | cons it rest ih =>
      by_cases h : pool = []
      · simp [flowRun, h]
      · by_cases hc : (it.clickOk && it.classifiedOk) = true
        · simp [flowRun, h, expired, hc]
        · have hc' : (it.clickOk && it.classifiedOk) = false := by
            cases hv : (it.clickOk && it.classifiedOk)
            · rfl
            · exact absurd hv hc
          simp only [flowRun, h, if_false, expired, Bool.false_eq_true, hc']
          simpa using ih (removeGroup pool (sample pool it.pick))
  · intro trace hnone
    induction trace with
    | nil => simp [step8_select_date]
    | cons e rest ih =>
      obtain ⟨now, opts⟩ := e
      have hhead : opts.find? (fun t => strContains target t) = none :=
        hnone (now, opts) (List.mem_cons_self _ _)
      have hrest : ∀ e ∈ rest, e.2.find? (fun t => strContains target t) = none :=
        fun e he => hnone e (List.mem_cons_of_mem _ he)
      simp only [step8_select_date, expired, Bool.false_eq_true, if_false, hhead]
      simpa using ih hrest

/-- Witness for C10 at concrete inputs. -/
theorem C10_no_deadline_witness :
    (step8_select_date "9-17" none
      [(1000000, ["8-16"]), (2000000, ["8-17"])]).1 = .running :=
  (C10_no_deadline "9-17").2.2.2.2
    [(1000000, ["8-16"]), (2000000, ["8-17"])] (by decide)

/-- **C2.** Within one date-selection cycle, across the attempts the retry
loop performs (the attempt trace of `flowRun`): for every earlier attempt
`a` and later attempt `b`, the pool at `b` is no larger than the pool at `a`
(and is contained in it), and no member of `a`'s attempt group — removed
from the pool after `a` fails — is ever part of `b`'s attempt group. -/
theorem C2_pool_monotone (timeout : Option Time) (script : List Iter)
    (pool : List Cand) (hnd : pool.Nodup) :
    List.Pairwise (fun a b : List Cand × List Cand =>
      b.1.length ≤ a.1.length ∧ (∀ x ∈ b.1, x ∈ a.1) ∧ ∀ x ∈ a.2, x ∉ b.2)
      (flowRun timeout pool script).2 := by
  induction script generalizing pool with
  | nil =>
    by_cases hp : pool = [] <;> simp [flowRun, hp]
  | cons it rest ih =>
    by_cases hp : pool = []
    · rw [hp, flowRun_nil_pool]
      exact List.Pairwise.nil
    · cases he : expired timeout it.now with
      | true =>
        rw [flowRun_timed_out timeout pool it rest hp he]
        exact List.Pairwise.nil
      | false =>
        cases hc : (it.clickOk && it.classifiedOk) with
        | true =>
          rw [flowRun_success_step timeout pool it rest hp he hc]
          simp
        | false =>
          rw [flowRun_retry_step timeout pool it rest hp he hc]
          have hnd' : (removeGroup pool (sample pool it.pick)).Nodup :=
            hnd.sublist (removeGroup_sublist pool (sample pool it.pick))
          refine List.Pairwise.cons ?_ (ih _ hnd')
          intro b hb
          have hmem := flow_trace_mem timeout rest
            (removeGroup pool (sample pool it.pick)) b hb
          refine ⟨?_, ?_, ?_⟩
          · exact hmem.1.length_le.trans
              (removeGroup_sublist pool (sample pool it.pick)).length_le
          · intro x hx
            exact (removeGroup_sublist pool (sample pool it.pick)).subset
              (hmem.1.subset hx)
          · intro x hx hxb
            have hx2 : x ∈ removeGroup pool (sample pool it.pick) :=
              hmem.1.subset (hmem.2 x hxb)
            exact not_mem_removeGroup pool (sample pool it.pick) hnd x hx hx2

/-- Witness for C2 at concrete inputs: pool `[1, 2, 3]`, two failing
attempts. -/
theorem C2_pool_monotone_witness :
    List.Pairwise (fun a b : List Cand × List Cand =>
      b.1.length ≤ a.1.length ∧ (∀ x ∈ b.1, x ∈ a.1) ∧ ∀ x ∈ a.2, x ∉ b.2)
      (flowRun none [1, 2, 3]
        [⟨0, [0], false, false⟩, ⟨1, [0], true, false⟩]).2 :=
  C2_pool_monotone none [⟨0, [0], false, false⟩, ⟨1, [0], true, false⟩]
    [1, 2, 3] (by decide)

/-- **C4.** One selection (`random.sample(pool, min(2, len(pool)))`) yields
an attempt group of exactly `min 2 |pool|` pairwise-distinct candidates, all
drawn from the pool; and a retry-loop iteration that reaches an empty pool
terminates the session at once with `exhausted` — no selection, no attempt,
no retry. -/
theorem C4_attempt_group (pool : List Cand) (pick : List Nat)
    (hpool : pool.Nodup) (hpick : validPick pool.length pick) :
    (sample pool pick).length = min 2 pool.length
    ∧ (sample pool pick).Nodup
    ∧ (∀ x ∈ sample pool pick, x ∈ pool)
    ∧ (∀ timeout script, flowRun timeout [] script = (.exhausted, [])) := by
  obtain ⟨hnd, hlt, hlen⟩ := hpick
  refine ⟨?_, ?_, ?_, ?_⟩
  · rw [sample_length pool pick hlt, hlen]
  · exact sample_nodup pool pick hpool hnd hlt
  · exact fun x hx => sample_subset pool pick x hx
  · exact fun timeout script => flowRun_nil_pool timeout script

/-- Witness for C4 at concrete inputs: pool `[5, 6, 7]`, draw positions
`[2, 0]`. -/
theorem C4_attempt_group_witness :
    (sample [5, 6, 7] [2, 0]).length = min 2 3
    ∧ (sample [5, 6, 7] [2, 0]).Nodup :=
  ⟨(C4_attempt_group [5, 6, 7] [2, 0] (by decide)
      ⟨by decide, by decide, by decide⟩).1,
   (C4_attempt_group [5, 6, 7] [2, 0] (by decide)
      ⟨by decide, by decide, by decide⟩).2.1⟩

/-- **C5.** Retry orchestration: an iteration whose attempt fails (click
failure or failed/unknown classification) removes exactly the just-attempted
group's members from the pool (membership in the new pool is membership in
the old one minus the group) and loops back to slot selection with that pool;
an iteration that starts with an empty pool ends the run with `exhausted` and
attempts nothing; an iteration whose head deadline-check observes an expired
clock ends the run with `timedOut` and attempts nothing; and a successful
classification ends the run with `success` after exactly that one attempt.
`flowRun` is a function, so each run reports exactly one of these
outcomes. -/
theorem C5_retry_orchestration (timeout : Option Time) :
    (∀ pool it rest, pool ≠ [] → pool.Nodup →
      expired timeout it.now = false →
      (it.clickOk && it.classifiedOk) = false →
      flowRun timeout pool (it :: rest) =
        ((flowRun timeout (removeGroup pool (sample pool it.pick)) rest).1,
          (pool, sample pool it.pick) ::
            (flowRun timeout (removeGroup pool (sample pool it.pick)) rest).2)
      ∧ (∀ x, x ∈ removeGroup pool (sample pool it.pick) ↔
          x ∈ pool ∧ x ∉ sample pool it.pick))
    ∧ (∀ script, flowRun timeout [] script = (.exhausted, []))
    ∧ (∀ pool it rest, pool ≠ [] → expired timeout it.now = true →
        flowRun timeout pool (it :: rest) = (.timedOut, []))
    ∧ (∀ pool it rest, pool ≠ [] → expired timeout it.now = false →
        (it.clickOk && it.classifiedOk) = true →
        flowRun timeout pool (it :: rest) =
          (.success, [(pool, sample pool it.pick)])) := by
  refine ⟨?_, flowRun_nil_pool timeout, ?_, ?_⟩
  · intro pool it rest hp hnd he hc
    exact ⟨flowRun_retry_step timeout pool it rest hp he hc,
      fun x => mem_removeGroup pool (sample pool it.pick) hnd x⟩
  · intro pool it rest hp he
    exact flowRun_timed_out timeout pool it rest hp he
  · intro pool it rest hp he hc
    exact flowRun_success_step timeout pool it rest hp he hc

/-- Witness for C5 at concrete inputs: pool `[1, 2]`, one failing attempt
on candidate `1`. -/
theorem C5_retry_orchestration_witness :
    flowRun none [1, 2] [⟨0, [0], true, false⟩] =
      ((flowRun none (removeGroup [1, 2] (sample [1, 2] [0])) []).1,
        ([1, 2], sample [1, 2] [0]) ::
          (flowRun none (removeGroup [1, 2] (sample [1, 2] [0])) []).2) :=
  ((C5_retry_orchestration none).1 [1, 2] ⟨0, [0], true, false⟩ []
    (by decide) (by decide) (by decide) (by decide)).1

/-- **C7.** The confirmation loop: clicks happen on a 125 ms cadence
(8 per second) inside a 2000 ms budget, so the click count never exceeds 16
— in particular when no result surface ever appears; the modal check runs
after every click and the loop returns the first iteration it observes a
modal, with however many clicks have happened by then; when the loop ends
without having seen a modal, the executor's verdict is exactly that of the
further 5000 ms wait for a modal; and when the submit control is not
locatable within the initial 10000 ms wait the attempt returns `false`
directly, with no retry inside this component. -/
theorem C7_confirmation_loop :
    (∀ clickErr modal delays,
      (step10_confirm clickErr modal delays 0 0).2 ≤ 16)
    ∧ (∀ clickErr modal delays elapsed count, elapsed < 2000 →
        clickErr.headD false = false → modal.headD false = true →
        step10_confirm clickErr modal delays elapsed count = (true, count + 1))
    ∧ (∀ t clickErr modal delays lateModalAt, t ≤ 10000 →
        (step10_confirm clickErr modal delays 0 0).1 = false →
        step10_click_book_button_with_retry (some t) clickErr modal delays
            lateModalAt =
          match lateModalAt with
          | none => false
          | some m => decide (m ≤ 5000))
    ∧ (∀ clickErr modal delays lateModalAt,
        step10_click_book_button_with_retry none clickErr modal delays
          lateModalAt = false)
    ∧ (∀ t clickErr modal delays lateModalAt, ¬ t ≤ 10000 →
        step10_click_book_button_with_retry (some t) clickErr modal delays
          lateModalAt = false) := by
  refine ⟨?_, ?_, ?_, ?_, ?_⟩
  · intro ce m d
    exact step10_confirm_count_le 16 ce m d 0 0 (by omega)
  · intro ce m d e c he h1 h2
    have h1' : ce.head?.getD false = false := by
      cases ce with
      | nil => rfl
      | cons a l => simpa using h1
    have h2' : m.head?.getD false = true := by
      cases m with
      | nil => exact absurd h2 (by simp)
      | cons a l => simpa using h2
    rw [step10_confirm, dif_pos he]
    simp [h1', h2']
  · intro t ce m d lm ht h
    simp only [step10_click_book_button_with_retry, if_pos ht, h,
      Bool.false_eq_true, if_false]
  · intro ce m d lm
    rfl
  · intro t ce m d lm ht
    simp [step10_click_book_button_with_retry, ht]

/-- Witness for C7 at concrete inputs: a modal on the first iteration stops
the loop after one click; a run with no modal at all stays within 16
clicks. -/
theorem C7_confirmation_loop_witness :
    step10_confirm [false] [true] [] 0 0 = (true, 0 + 1)
    ∧ (step10_confirm [] [] [] 0 0).2 ≤ 16 :=
  ⟨C7_confirmation_loop.2.1 [false] [true] [] 0 0 (by decide) (by decide)
      (by decide),
   C7_confirmation_loop.1 [] [] []⟩

/-- **C8.** Pool construction: when the page-wide scan finds no bookable
button, step 9 fails (`"未找到任何可预约按钮"`); otherwise it returns a pool
such that, when some bookable button sits in a row whose text contains a
configured target slot, pool membership is exactly "lies in a row whose text
contains a configured target slot", and when no button does, the pool is the
full unfiltered scan; and `smart_booking_flow` likewise returns its
no-candidates failure when its own scan comes back empty. -/
theorem C8_pool_construction (targets : List String) (allBookable : List Cand)
    (rows : List Row) :
    (allBookable = [] →
      step9_pool targets allBookable rows = .error .noCandidatesFound)
    ∧ (allBookable ≠ [] →
        ∃ pool, step9_pool targets allBookable rows = .ok pool
          ∧ ((∃ y, ∃ row ∈ rows, rowMatch targets row = true ∧ y ∈ row.buttons) →
              ∀ x, x ∈ pool ↔
                ∃ row ∈ rows, rowMatch targets row = true ∧ x ∈ row.buttons)
          ∧ (¬ (∃ y, ∃ row ∈ rows, rowMatch targets row = true ∧ y ∈ row.buttons) →
              pool = allBookable))
    ∧ (∀ timeout script,
        smart_booking_flow timeout [] script = (.noCandidates, [])) := by
  refine ⟨?_, ?_, ?_⟩
  · intro h
    simp [step9_pool, h]
  · intro h
    by_cases hsel : rows.foldl (fun acc row => targets.foldl (fun acc2 t =>
        if strContains t row.text then acc2 ++ row.buttons else acc2) acc) [] = []
    · refine ⟨allBookable, ?_, ?_, fun _ => rfl⟩
      · simp [step9_pool, h, hsel]
      · rintro ⟨y, hy⟩
        have : y ∈ rows.foldl (fun acc row => targets.foldl (fun acc2 t =>
            if strContains t row.text then acc2 ++ row.buttons else acc2) acc) [] :=
          (mem_rows_foldl targets rows [] y).mpr (Or.inr hy)
        rw [hsel] at this
        cases this
    · refine ⟨rows.foldl (fun acc row => targets.foldl (fun acc2 t =>
          if strContains t row.text then acc2 ++ row.buttons else acc2) acc) [],
        ?_, ?_, ?_⟩
      · simp [step9_pool, h, hsel]
      · intro _ x
        rw [mem_rows_foldl targets rows [] x]
        simp
      · intro hno
        obtain ⟨y, hy⟩ := List.exists_mem_of_ne_nil _ hsel
        have := (mem_rows_foldl targets rows [] y).mp hy
        simp only [List.not_mem_nil, false_or] at this
        exact absurd ⟨y, this⟩ hno
  · intro timeout script
    simp [smart_booking_flow]

/-- Witness for C8 at concrete inputs: one matching row restricts the pool
to its buttons. -/
theorem C8_pool_construction_witness :
    ∃ pool, step9_pool ["21:00-22:00"] [1, 2, 3]
        [⟨"21:00-22:00 场地A", [1]⟩] = .ok pool
      ∧ ((∃ y, ∃ row ∈ [(⟨"21:00-22:00 场地A", [1]⟩ : Row)],
            rowMatch ["21:00-22:00"] row = true ∧ y ∈ row.buttons) →
          ∀ x, x ∈ pool ↔ ∃ row ∈ [(⟨"21:00-22:00 场地A", [1]⟩ : Row)],
            rowMatch ["21:00-22:00"] row = true ∧ x ∈ row.buttons)
      ∧ (¬ (∃ y, ∃ row ∈ [(⟨"21:00-22:00 场地A", [1]⟩ : Row)],
            rowMatch ["21:00-22:00"] row = true ∧ y ∈ row.buttons) →
          pool = [1, 2, 3]) :=
  (C8_pool_construction ["21:00-22:00"] [1, 2, 3]
    [⟨"21:00-22:00 场地A", [1]⟩]).2.1 (by decide)

/-- **C9.** The wait scheduler: when invoked at or past `bookingTime` minus
the 1-minute lead, it proceeds immediately — no sleep, no tick — and signals
the late-start condition; when invoked strictly before that instant, it does
not signal late-start, performs exactly `bookingTime - 60 - now` one-second
sleeps (so it sleeps precisely until the start instant), and emits exactly
one seconds-remaining tick per sleep second. -/
theorem C9_wait_scheduler (bookingTime now : Int) :
    (bookingTime - 60 ≤ now →
      wait_until_booking_time bookingTime now =
        { lateStart := true, ticks := [], sleeps := 0 })
    ∧ (now < bookingTime - 60 →
        (wait_until_booking_time bookingTime now).lateStart = false
        ∧ ((wait_until_booking_time bookingTime now).sleeps : Int) =
            bookingTime - 60 - now
        ∧ (wait_until_booking_time bookingTime now).ticks.length =
            (wait_until_booking_time bookingTime now).sleeps) := by
  constructor
  · intro h
    have hnot : ¬ now < bookingTime - 60 := not_lt.mpr h
    simp [wait_until_booking_time, hnot]
  · intro h
    have hpos : (0 : Int) < bookingTime - 60 - now := by omega
    have heq : wait_until_booking_time bookingTime now =
        { lateStart := false,
          ticks := (bookingTime - 60 - now).toNat ::
            (countdownLoop (bookingTime - 60 - now).toNat).1,
          sleeps := (countdownLoop (bookingTime - 60 - now).toNat).2 } := by
      simp only [wait_until_booking_time, if_pos h]
    rw [heq]
    refine ⟨rfl, ?_, ?_⟩
    · show (((countdownLoop (bookingTime - 60 - now).toNat).2 : Nat) : Int) = _
      rw [countdownLoop_sleeps]
      exact Int.toNat_of_nonneg (le_of_lt hpos)
    · show ((bookingTime - 60 - now).toNat ::
          (countdownLoop (bookingTime - 60 - now).toNat).1).length = _
      simp only [List.length_cons, countdownLoop_ticks_length,
        countdownLoop_sleeps]
      omega

/-- Witness for C9 at concrete inputs: release instant 100 — invoked at 50
(past the start instant 40) it late-starts without sleeping; invoked at 0 it
does not late-start. -/
theorem C9_wait_scheduler_witness :
    wait_until_booking_time 100 50 =
      { lateStart := true, ticks := [], sleeps := 0 }
    ∧ (wait_until_booking_time 100 0).lateStart = false :=
  ⟨(C9_wait_scheduler 100 50).1 (by decide),
   ((C9_wait_scheduler 100 0).2 (by decide)).1⟩

end GymBooking
